import Mathlib

/-!
Verification of the notes-app note store, modal controller and persistence
adapter, shallowly embedded from src/src/App.tsx.

Modelling conventions:
- Note ids are natural numbers standing for the opaque uuid strings the code
  generates with uuidv4; freshness of a generated id is the only property the
  code relies on.
- Timestamps are natural numbers standing for the ISO-8601 strings produced by
  new Date().toISOString(); the code only ever writes the current time into
  them and the spec compares them by the time order, which the ISO strings
  realise lexicographically.
- A thrown JavaScript exception is modelled with Except: the thrown case
  carries a JsError value, and at the event level a throw leaves the React
  state unchanged because the state setters after the throwing call are
  never reached.
-/

namespace NotesApp

/-- The Note record of App.tsx (lines 6-11): id, content, createdAt,
updatedAt. -/
structure Note where
  id : Nat
  content : String
  createdAt : Nat
  updatedAt : Nat
deriving Repr, DecidableEq

/-- A JavaScript runtime exception. The only one the store can raise is the
TypeError from dereferencing noteToEdit! when find returned undefined
(App.tsx line 79). -/
inductive JsError where
  | typeError
deriving Repr, DecidableEq

/-- addNote from App.tsx lines 63-74: builds a record whose createdAt and
updatedAt are both the single date sampled at the start, and prepends it.
The generated uuid and the sampled date enter as parameters newId and
date. -/
def addNote (notes : List Note) (newId : Nat) (date : Nat) (content : String) : List Note :=
  { id := newId, content := content, createdAt := date, updatedAt := date } :: notes

/-- editNote from App.tsx lines 76-86: find the note, mutate its content and
updatedAt in place, filter it out of the list and unshift the mutated record.
When find returns undefined the in-place mutation on line 79 throws a
TypeError, modelled as the error case. -/
def editNote (notes : List Note) (id : Nat) (content : String) (now : Nat) :
    Except JsError (List Note) :=
  match notes.find? (fun note => note.id == id) with
  | none => Except.error JsError.typeError
  | some noteToEdit =>
      Except.ok ({ noteToEdit with content := content, updatedAt := now }
        :: notes.filter (fun note => note.id != id))

/-- deleteNote from App.tsx lines 88-92: keep every note whose id differs. -/
def deleteNote (notes : List Note) (id : Nat) : List Note :=
  notes.filter (fun note => note.id != id)

/-- C2: addNote followed by reading the list yields the new note at index 0,
its createdAt equal to its updatedAt, with all previously present notes
following in their prior relative order (and the length grown by one). -/
theorem addNote_new_note_at_front (notes : List Note) (newId date : Nat) (c : String) :
    (addNote notes newId date c).head?
      = some { id := newId, content := c, createdAt := date, updatedAt := date }
    ∧ ({ id := newId, content := c, createdAt := date, updatedAt := date } : Note).createdAt
      = ({ id := newId, content := c, createdAt := date, updatedAt := date } : Note).updatedAt
    ∧ (addNote notes newId date c).tail = notes
    ∧ (addNote notes newId date c).length = notes.length + 1 := by
  refine ⟨rfl, rfl, rfl, ?_⟩
  simp [addNote]

/-- Helper: the ids of a filtered note list form a sublist of the ids of the
original list. -/
theorem ids_filter_sublist (notes : List Note) (p : Note → Bool) :
    ((notes.filter p).map Note.id).Sublist (notes.map Note.id) :=
  (List.filter_sublist notes).map Note.id

/-- Helper: filtering away an id that does not occur leaves the list
unchanged. -/
theorem filter_ne_of_not_mem (notes : List Note) (i : Nat)
    (h : i ∉ notes.map Note.id) :
    notes.filter (fun note => note.id != i) = notes := by
  induction notes with
  | nil => rfl
  | cons n ns ih =>
      simp only [List.map_cons, List.mem_cons] at h
      push_neg at h
      rw [List.filter_cons]
      simp only [bne_iff_ne, ne_eq]
      rw [if_pos (fun hn => h.1 hn.symm), ih h.2]

/-- Helper: with pairwise distinct ids, removing the notes carrying a present
id i shortens the list by exactly one. -/
theorem length_filter_ne_of_mem (notes : List Note) (i : Nat)
    (hnd : (notes.map Note.id).Nodup) (hmem : i ∈ notes.map Note.id) :
    (notes.filter (fun note => note.id != i)).length + 1 = notes.length := by
  induction notes with
  | nil => simp at hmem
  | cons n ns ih =>
      simp only [List.map_cons, List.nodup_cons] at hnd
      simp only [List.map_cons, List.mem_cons] at hmem
      rw [List.filter_cons]
      by_cases hni : n.id = i
      · rw [if_neg (by simp [hni])]
        rw [filter_ne_of_not_mem ns i (hni ▸ hnd.1)]
        simp
      · rw [if_pos (by simp [Ne.symm, hni])]
        rcases hmem with hmem | hmem
        · exact absurd hmem.symm hni
        · simpa using ih hnd.2 hmem

/-- Helper: a note surviving the filter has an id different from i. -/
theorem id_ne_of_mem_filter (notes : List Note) (i : Nat) (m : Note)
    (hm : m ∈ notes.filter (fun note => note.id != i)) : m.id ≠ i := by
  have := List.of_mem_filter hm
  simpa using this

/-- Helper: the note returned by find has the id searched for. -/
theorem find?_id_eq (notes : List Note) (i : Nat) (n0 : Note)
    (hfind : notes.find? (fun note => note.id == i) = some n0) : n0.id = i := by
  have := List.find?_some hfind
  simpa using this

/-- Helper: a successful editNote produces the updated record consed onto the
filter of the original list. -/
theorem editNote_ok_eq (notes : List Note) (i : Nat) (c : String) (now : Nat)
    (n0 : Note) (hfind : notes.find? (fun note => note.id == i) = some n0) :
    editNote notes i c now
      = Except.ok ({ n0 with content := c, updatedAt := now }
          :: notes.filter (fun note => note.id != i)) := by
  rw [editNote, hfind]

/-- Helper: deleteNote keeps ids pairwise distinct. -/
theorem deleteNote_nodup (notes : List Note) (i : Nat)
    (h : (notes.map Note.id).Nodup) :
    ((deleteNote notes i).map Note.id).Nodup :=
  (ids_filter_sublist notes _).nodup h

/-- Helper: a successful editNote keeps ids pairwise distinct. -/
theorem editNote_nodup (notes : List Note) (i : Nat) (c : String) (now : Nat)
    (ns : List Note) (h : (notes.map Note.id).Nodup)
    (hok : editNote notes i c now = Except.ok ns) :
    (ns.map Note.id).Nodup := by
  rw [editNote] at hok
  cases hfind : notes.find? (fun note => note.id == i) with
  | none => rw [hfind] at hok; cases hok
  | some n0 =>
      rw [hfind] at hok
      cases hok
      rw [List.map_cons, List.nodup_cons]
      constructor
      · intro hmem
        rcases List.mem_map.mp hmem with ⟨m, hmf, hmi⟩
        have hne := id_ne_of_mem_filter notes i m hmf
        have h0 : n0.id = i := find?_id_eq notes i n0 hfind
        exact hne (by simpa [h0] using hmi)
      · exact (ids_filter_sublist notes _).nodup h

/-- Helper: addNote with a fresh id keeps ids pairwise distinct. -/
theorem addNote_nodup (notes : List Note) (newId date : Nat) (c : String)
    (hfresh : newId ∉ notes.map Note.id) (h : (notes.map Note.id).Nodup) :
    ((addNote notes newId date c).map Note.id).Nodup := by
  rw [addNote, List.map_cons, List.nodup_cons]
  exact ⟨hfresh, h⟩

/-- Model of the freshness guarantee of uuidv4 (App.tsx line 67): an id
strictly larger than every id in the collection, hence not occurring in it. -/
def freshId (notes : List Note) : Nat :=
  (notes.map Note.id).foldr max 0 + 1

/-- Helper: every member of a list of naturals is bounded by its foldr max. -/
theorem le_foldr_max (l : List Nat) (x : Nat) (hx : x ∈ l) :
    x ≤ l.foldr max 0 := by
  induction l with
  | nil => simp at hx
  | cons a as ih =>
      rcases List.mem_cons.mp hx with rfl | hx
      · exact le_max_left _ _
      · exact le_trans (ih hx) (le_max_right _ _)

/-- Helper: the fresh id does not occur among the present ids. -/
theorem freshId_not_mem (notes : List Note) :
    freshId notes ∉ notes.map Note.id := by
  intro hmem
  have := le_foldr_max (notes.map Note.id) _ hmem
  simp only [freshId] at this
  omega

/-- One user-level store operation, carrying the timestamp sampled by new
Date at the moment it runs. -/
inductive StoreOp where
  | add (content : String) (date : Nat)
  | edit (id : Nat) (content : String) (date : Nat)
  | delete (id : Nat)
deriving Repr, DecidableEq

/-- Apply one store operation to the collection. An add uses a fresh
uuid-modelling id; an edit whose id is absent throws, so setNotes is never
reached and the collection is unchanged. -/
def applyOp (notes : List Note) : StoreOp → List Note
  | StoreOp.add c d => addNote notes (freshId notes) d c
  | StoreOp.edit i c d =>
      match editNote notes i c d with
      | Except.ok ns => ns
      | Except.error _ => notes
  | StoreOp.delete i => deleteNote notes i

/-- Run a sequence of store operations from an initial collection. -/
def runOps (init : List Note) (ops : List StoreOp) : List Note :=
  ops.foldl applyOp init

/-- Helper: one operation preserves pairwise distinctness of ids. -/
theorem applyOp_nodup (notes : List Note) (op : StoreOp)
    (h : (notes.map Note.id).Nodup) :
    ((applyOp notes op).map Note.id).Nodup := by
  cases op with
  | add c d =>
      exact addNote_nodup notes (freshId notes) d c (freshId_not_mem notes) h
  | edit i c d =>
      rw [applyOp]
      cases hE : editNote notes i c d with
      | ok ns => exact editNote_nodup notes i c d ns h hE
      | error e => exact h
  | delete i => exact deleteNote_nodup notes i h

/-- C1: over every sequence of add, edit and delete operations from a
collection with pairwise distinct ids, the collection never contains two
notes with the same id, each generated id being fresh. -/
theorem runOps_ids_nodup (ops : List StoreOp) (init : List Note)
    (h : (init.map Note.id).Nodup) :
    ((runOps init ops).map Note.id).Nodup := by
  induction ops generalizing init with
  | nil => simpa [runOps] using h
  | cons op ops ih =>
      rw [runOps, List.foldl_cons]
      exact ih (applyOp init op) (applyOp_nodup init op h)

/-- Witness for C1 at a concrete run: two adds, an edit of the first id, a
delete of a missing id, starting from the empty collection. -/
theorem runOps_ids_nodup_witness :
    ((runOps [] [StoreOp.add "a" 1, StoreOp.add "b" 2,
        StoreOp.edit 1 "c" 3, StoreOp.delete 9]).map Note.id).Nodup :=
  runOps_ids_nodup _ [] (by simp)

/-- Helper: a found id is among the ids of the collection. -/
theorem mem_ids_of_find? (notes : List Note) (i : Nat) (n0 : Note)
    (hfind : notes.find? (fun note => note.id == i) = some n0) :
    i ∈ notes.map Note.id := by
  have hmem : n0 ∈ notes := List.mem_of_find?_eq_some hfind
  have hid : n0.id = i := find?_id_eq notes i n0 hfind
  exact hid ▸ List.mem_map_of_mem Note.id hmem

/-- C3 counterexample: editing a note at the very timestamp of its creation
leaves updatedAt equal to createdAt, so updatedAt is not strictly greater. -/
theorem editNote_strict_updatedAt_cex :
    editNote [{ id := 1, content := "a", createdAt := 5, updatedAt := 5 }] 1 "b" 5
      = Except.ok [{ id := 1, content := "b", createdAt := 5, updatedAt := 5 }]
    ∧ ¬ ({ id := 1, content := "b", createdAt := 5, updatedAt := 5 } : Note).createdAt
        < ({ id := 1, content := "b", createdAt := 5, updatedAt := 5 } : Note).updatedAt :=
  ⟨rfl, by decide⟩

/-- C3 as amended: with distinct ids and the note with id i present, editNote
puts the note, its content replaced and its updatedAt set to the sampled
time, at index 0, keeps every other note in its prior relative order, keeps
the length, and updatedAt exceeds createdAt whenever the sampled time
exceeds createdAt. -/
theorem editNote_moves_to_front (notes : List Note) (i : Nat) (c : String)
    (now : Nat) (n0 : Note)
    (hnd : (notes.map Note.id).Nodup)
    (hfind : notes.find? (fun note => note.id == i) = some n0)
    (hlt : n0.createdAt < now) :
    editNote notes i c now
      = Except.ok ({ n0 with content := c, updatedAt := now }
          :: notes.filter (fun note => note.id != i))
    ∧ ({ n0 with content := c, updatedAt := now } : Note).createdAt
        < ({ n0 with content := c, updatedAt := now } : Note).updatedAt
    ∧ (notes.filter (fun note => note.id != i)).length + 1 = notes.length := by
  refine ⟨editNote_ok_eq notes i c now n0 hfind, hlt, ?_⟩
  exact length_filter_ne_of_mem notes i hnd (mem_ids_of_find? notes i n0 hfind)

/-- Witness for the amended C3 on a concrete two-note collection. -/
theorem editNote_moves_to_front_witness :
    editNote [{ id := 1, content := "a", createdAt := 5, updatedAt := 5 },
        { id := 2, content := "b", createdAt := 3, updatedAt := 3 }] 2 "z" 7
      = Except.ok [{ id := 2, content := "z", createdAt := 3, updatedAt := 7 },
          { id := 1, content := "a", createdAt := 5, updatedAt := 5 }] :=
  (editNote_moves_to_front
    [{ id := 1, content := "a", createdAt := 5, updatedAt := 5 },
     { id := 2, content := "b", createdAt := 3, updatedAt := 3 }] 2 "z" 7
    { id := 2, content := "b", createdAt := 3, updatedAt := 3 }
    (by decide) rfl (by decide)).1

/-- C5: with distinct ids, deleteNote removes exactly one element when id i
is present and is a no-op when it is not, and the surviving notes are
unchanged original notes in their original relative order. -/
theorem deleteNote_removes_at_most_one (notes : List Note) (i : Nat)
    (hnd : (notes.map Note.id).Nodup) :
    (i ∈ notes.map Note.id → (deleteNote notes i).length + 1 = notes.length)
    ∧ (i ∉ notes.map Note.id → deleteNote notes i = notes)
    ∧ (deleteNote notes i).Sublist notes
    ∧ (∀ m ∈ notes, m.id ≠ i → m ∈ deleteNote notes i) := by
  refine ⟨fun hmem => length_filter_ne_of_mem notes i hnd hmem,
    fun hmem => filter_ne_of_not_mem notes i hmem,
    List.filter_sublist notes, ?_⟩
  intro m hm hne
  exact List.mem_filter.mpr ⟨hm, by simpa using hne⟩

/-- Witness for C5, the spec scenario: deleting a nonexistent id from a
two-note collection leaves both notes unchanged and in the same order. -/
theorem deleteNote_removes_at_most_one_witness :
    deleteNote [{ id := 1, content := "a", createdAt := 5, updatedAt := 5 },
        { id := 2, content := "b", createdAt := 3, updatedAt := 3 }] 99
      = [{ id := 1, content := "a", createdAt := 5, updatedAt := 5 },
         { id := 2, content := "b", createdAt := 3, updatedAt := 3 }] :=
  (deleteNote_removes_at_most_one
    [{ id := 1, content := "a", createdAt := 5, updatedAt := 5 },
     { id := 2, content := "b", createdAt := 3, updatedAt := 3 }] 99
    (by decide)).2.1 (by decide)

/-- C8: a successful editNote keeps the edited note's id and createdAt while
replacing only content and updatedAt, and every other note keeps every field,
in the prior relative order; the length is kept. -/
theorem editNote_immutable_fields (notes : List Note) (i : Nat) (c : String)
    (now : Nat) (n0 : Note)
    (hnd : (notes.map Note.id).Nodup)
    (hfind : notes.find? (fun note => note.id == i) = some n0) :
    (editNote notes i c now).toOption.bind List.head?
      = some { id := n0.id, content := c, createdAt := n0.createdAt, updatedAt := now }
    ∧ (editNote notes i c now).toOption.map List.tail
      = some (notes.filter (fun note => note.id != i))
    ∧ (editNote notes i c now).toOption.map List.length = some notes.length := by
  rw [editNote_ok_eq notes i c now n0 hfind]
  refine ⟨rfl, rfl, ?_⟩
  have hlen := length_filter_ne_of_mem notes i hnd (mem_ids_of_find? notes i n0 hfind)
  simp only [Except.toOption, List.length_cons, Option.map_some']
  rw [hlen]

/-- Witness for C8 on a concrete two-note collection. -/
theorem editNote_immutable_fields_witness :
    (editNote [{ id := 1, content := "a", createdAt := 2, updatedAt := 2 },
        { id := 7, content := "q", createdAt := 3, updatedAt := 4 }] 1 "b" 9).toOption.bind
        List.head?
      = some { id := 1, content := "b", createdAt := 2, updatedAt := 9 }
    ∧ (editNote [{ id := 1, content := "a", createdAt := 2, updatedAt := 2 },
        { id := 7, content := "q", createdAt := 3, updatedAt := 4 }] 1 "b" 9).toOption.map
        List.tail
      = some [{ id := 7, content := "q", createdAt := 3, updatedAt := 4 }]
    ∧ (editNote [{ id := 1, content := "a", createdAt := 2, updatedAt := 2 },
        { id := 7, content := "q", createdAt := 3, updatedAt := 4 }] 1 "b" 9).toOption.map
        List.length = some 2 :=
  editNote_immutable_fields
    [{ id := 1, content := "a", createdAt := 2, updatedAt := 2 },
     { id := 7, content := "q", createdAt := 3, updatedAt := 4 }] 1 "b" 9
    { id := 1, content := "a", createdAt := 2, updatedAt := 2 } (by decide) rfl

/-- The Modal record of App.tsx (lines 17-20): a string type tag and an
optional note snapshot. -/
structure Modal where
  type : String
  data : Option Note
deriving Repr, DecidableEq

/-- The React state of App (lines 23-26): the note collection, the modal
record, the react-hook-form content field and the markdown-mode flag. -/
structure AppState where
  notes : List Note
  modal : Modal
  formValue : String
  markdownMode : Bool
deriving Repr, DecidableEq

/-- The initial modal state (App.tsx line 24). -/
def initialModal : Modal :=
  { type := "", data := none }

/-- handleForm from App.tsx lines 38-47: in the ADD modal it adds the form
content, otherwise it edits the selected note; then it clears the form field
and closes the modal. A missing selection or a missing id makes editNote
throw, so the clearing and closing lines are never reached. -/
def handleForm (s : AppState) (content : String) (newId now : Nat) :
    Except JsError AppState :=
  if s.modal.type = "ADD" then
    Except.ok { s with
      notes := addNote s.notes newId now content,
      formValue := "",
      modal := initialModal }
  else
    match s.modal.data with
    | none => Except.error JsError.typeError
    | some sel =>
        match editNote s.notes sel.id content now with
        | Except.error e => Except.error e
        | Except.ok ns =>
            Except.ok { s with
              notes := ns,
              formValue := "",
              modal := initialModal }

/-- handleAdd from App.tsx lines 49-51. -/
def handleAdd (s : AppState) : AppState :=
  { s with modal := { type := "ADD", data := none } }

/-- handleEdit from App.tsx lines 53-56: pre-fill the form with the snapshot
content and open the EDIT modal on it. -/
def handleEdit (s : AppState) (data : Note) : AppState :=
  { s with formValue := data.content, modal := { type := "EDIT", data := some data } }

/-- handleDelete from App.tsx lines 58-61. -/
def handleDelete (s : AppState) (i : Nat) : AppState :=
  { s with notes := deleteNote s.notes i, modal := initialModal }

/-- A user interaction event. Submit carries the submitted form content plus
the uuid and timestamp sampled while handling it; tapCard carries the index
of the tapped card in the rendered list. -/
inductive Event where
  | tapAdd
  | tapCard (idx : Nat)
  | submit (content : String) (newId : Nat) (now : Nat)
  | cancel
  | overlay
  | closeView
  | tapEdit
  | tapDelete
  | toggleMarkdown (b : Bool)
deriving Repr, DecidableEq

/-- One step of the UI: each event is handled exactly when the surface
carrying its control is on screen, per the render tree of App.tsx lines
94-224. The add button and the cards are reachable only with no modal open
because an open modal overlays the full viewport; cancel and submit exist on
the ADD and EDIT surfaces; close, edit, delete and the markdown toggle exist
on the VIEW surface; overlay click closes any open modal. A throwing submit
leaves the React state unchanged. -/
def step (s : AppState) : Event → AppState
  | Event.tapAdd => if s.modal.type = "" then handleAdd s else s
  | Event.tapCard idx =>
      if s.modal.type = "" then
        match s.notes.get? idx with
        | some n => { s with modal := { type := "VIEW", data := some n } }
        | none => s
      else s
  | Event.submit content newId now =>
      if s.modal.type = "ADD" ∨ s.modal.type = "EDIT" then
        match handleForm s content newId now with
        | Except.ok s2 => s2
        | Except.error _ => s
      else s
  | Event.cancel =>
      if s.modal.type = "ADD" ∨ s.modal.type = "EDIT" then
        { s with modal := initialModal, formValue := "" }
      else s
  | Event.overlay =>
      if s.modal.type = "ADD" ∨ s.modal.type = "EDIT" ∨ s.modal.type = "VIEW" then
        { s with modal := initialModal }
      else s
  | Event.closeView =>
      if s.modal.type = "VIEW" then { s with modal := initialModal } else s
  | Event.tapEdit =>
      if s.modal.type = "VIEW" then
        match s.modal.data with
        | some d => handleEdit s d
        | none => s
      else s
  | Event.tapDelete =>
      if s.modal.type = "VIEW" then
        match s.modal.data with
        | some d => handleDelete s d.id
        | none => { s with modal := initialModal }
      else s
  | Event.toggleMarkdown b =>
      if s.modal.type = "VIEW" then { s with markdownMode := b } else s

/-- Run a sequence of user interaction events. -/
def runEvents (s : AppState) (es : List Event) : AppState :=
  es.foldl step s

/-- Helper: find? misses exactly when the id is absent from the ids. -/
theorem find?_eq_none_of_not_mem (notes : List Note) (i : Nat)
    (h : i ∉ notes.map Note.id) :
    notes.find? (fun note => note.id == i) = none := by
  rw [List.find?_eq_none]
  intro x hx
  simp only [beq_iff_eq]
  intro hxi
  exact h (hxi ▸ List.mem_map_of_mem Note.id hx)

/-- Abbreviation for assembling an App state from its four fields. -/
def mkState (notes : List Note) (m : Modal) (draft : String) (md : Bool) : AppState :=
  { notes := notes, modal := m, formValue := draft, markdownMode := md }

/-- C4 counterexample: submitting the EDIT form on a stale snapshot whose id
is no longer in the collection leaves the modal in the EDIT state, not in the
closed state the claim promises. -/
theorem edit_missing_id_stays_open_cex :
    (step (mkState []
        { type := "EDIT",
          data := some { id := 9, content := "x", createdAt := 0, updatedAt := 0 } }
        "draft" true)
        (Event.submit "c" 5 10)).modal.type = "EDIT"
    ∧ "EDIT" ≠ "" :=
  ⟨rfl, by decide⟩

/-- C4 as amended: editing an id that is absent from the collection fails
with the thrown TypeError (the embedding of NotFoundError) and leaves the
collection unchanged; the thrown error aborts the submit handler before its
closing line, so the controller stays in its EDIT state instead of degrading
to the closed state. -/
theorem editNote_missing_id (notes : List Note) (d : Note) (c draft : String)
    (newId now : Nat) (md : Bool)
    (h : d.id ∉ notes.map Note.id) :
    editNote notes d.id c now = Except.error JsError.typeError
    ∧ step (mkState notes { type := "EDIT", data := some d } draft md)
          (Event.submit c newId now)
        = mkState notes { type := "EDIT", data := some d } draft md := by
  have hfind := find?_eq_none_of_not_mem notes d.id h
  have herr : editNote notes d.id c now = Except.error JsError.typeError := by
    rw [editNote, hfind]
  refine ⟨herr, ?_⟩
  simp only [step, handleForm, mkState]
  rw [if_pos (Or.inr trivial), if_neg (by decide)]
  simp only [herr]

/-- Witness for the amended C4 at a concrete stale snapshot. -/
theorem editNote_missing_id_witness :
    editNote [] (9 : Nat) "c" 10 = Except.error JsError.typeError :=
  (editNote_missing_id []
    { id := 9, content := "x", createdAt := 0, updatedAt := 0 }
    "c" "draft" 5 10 true (by decide)).1

/-- C9 counterexample: clicking outside the ADD surface closes the modal but
keeps the typed form content in the form state instead of discarding it. -/
theorem overlay_retains_form_cex :
    (step (mkState [] { type := "ADD", data := none } "draft" true)
        Event.overlay).modal = initialModal
    ∧ (step (mkState [] { type := "ADD", data := none } "draft" true)
        Event.overlay).formValue = "draft"
    ∧ "draft" ≠ "" :=
  ⟨rfl, rfl, by decide⟩

/-- C9 as amended: submitting in the ADD modal adds the submitted content and
submitting in the EDIT modal, when the selected id is still present, edits it;
both clear the form and close the modal. Cancel closes and clears the form;
an overlay click outside the surface, and closing the VIEW modal, close the
modal but retain the form content. -/
theorem submit_and_dismiss_transitions (notes ns : List Note) (d : Note)
    (c draft : String) (newId now : Nat) (md : Bool)
    (hok : editNote notes d.id c now = Except.ok ns) :
    step (mkState notes { type := "ADD", data := none } draft md)
        (Event.submit c newId now)
      = mkState (addNote notes newId now c) initialModal "" md
    ∧ step (mkState notes { type := "EDIT", data := some d } draft md)
        (Event.submit c newId now)
      = mkState ns initialModal "" md
    ∧ step (mkState notes { type := "ADD", data := none } draft md) Event.cancel
      = mkState notes initialModal "" md
    ∧ step (mkState notes { type := "EDIT", data := some d } draft md) Event.cancel
      = mkState notes initialModal "" md
    ∧ step (mkState notes { type := "ADD", data := none } draft md) Event.overlay
      = mkState notes initialModal draft md
    ∧ step (mkState notes { type := "EDIT", data := some d } draft md) Event.overlay
      = mkState notes initialModal draft md
    ∧ step (mkState notes { type := "VIEW", data := some d } draft md) Event.overlay
      = mkState notes initialModal draft md
    ∧ step (mkState notes { type := "VIEW", data := some d } draft md) Event.closeView
      = mkState notes initialModal draft md := by
  refine ⟨rfl, ?_, rfl, rfl, rfl, rfl, rfl, rfl⟩
  simp only [step, handleForm, mkState]
  rw [if_pos (Or.inr trivial), if_neg (by decide)]
  simp only [hok]

/-- Witness for the amended C9: a concrete EDIT submit on a one-note
collection. -/
theorem submit_and_dismiss_transitions_witness :
    step (mkState [{ id := 1, content := "a", createdAt := 0, updatedAt := 0 }]
        { type := "EDIT",
          data := some { id := 1, content := "a", createdAt := 0, updatedAt := 0 } }
        "old" true) (Event.submit "new" 5 4)
      = mkState [{ id := 1, content := "new", createdAt := 0, updatedAt := 4 }]
          initialModal "" true :=
  (submit_and_dismiss_transitions
    [{ id := 1, content := "a", createdAt := 0, updatedAt := 0 }]
    [{ id := 1, content := "new", createdAt := 0, updatedAt := 4 }]
    { id := 1, content := "a", createdAt := 0, updatedAt := 0 }
    "new" "old" 5 4 true rfl).2.1

/-- Well-formedness of the modal record: the type tag is one of the four
strings the code ever stores, and a note snapshot is attached exactly in the
EDIT and VIEW states. -/
def modalWellFormed (m : Modal) : Prop :=
  (m.type = "" ∨ m.type = "ADD" ∨ m.type = "EDIT" ∨ m.type = "VIEW")
  ∧ (m.data.isSome ↔ (m.type = "EDIT" ∨ m.type = "VIEW"))

/-- Helper: a successful handleForm closes the modal and clears the form. -/
theorem handleForm_ok_modal (s : AppState) (c : String) (newId now : Nat)
    (s2 : AppState) (h : handleForm s c newId now = Except.ok s2) :
    s2.modal = initialModal := by
  unfold handleForm at h
  split at h
  · cases h; rfl
  · split at h
    · cases h
    · split at h
      · cases h
      · cases h; rfl

/-- Helper: one step preserves well-formedness of the modal record. -/
theorem step_preserves_modalWellFormed (s : AppState) (e : Event)
    (h : modalWellFormed s.modal) : modalWellFormed (step s e).modal := by
  have hinit : modalWellFormed initialModal := by
    simp [modalWellFormed, initialModal]
  cases e with
  | tapAdd =>
      simp only [step]
      split
      · simp [modalWellFormed, handleAdd]
      · exact h
  | tapCard idx =>
      simp only [step]
      split
      · split
        · simp [modalWellFormed]
        · exact h
      · exact h
  | submit content newId now =>
      simp only [step]
      split
      · split
        · next s2 heq => rw [handleForm_ok_modal s content newId now s2 heq]; exact hinit
        · exact h
      · exact h
  | cancel =>
      simp only [step]
      split
      · exact hinit
      · exact h
  | overlay =>
      simp only [step]
      split
      · exact hinit
      · exact h
  | closeView =>
      simp only [step]
      split
      · exact hinit
      · exact h
  | tapEdit =>
      simp only [step]
      split
      · split
        · simp [modalWellFormed, handleEdit]
        · exact h
      · exact h
  | tapDelete =>
      simp only [step]
      split
      · split
        · simp [modalWellFormed, handleDelete, initialModal]
        · exact hinit
      · exact h
  | toggleMarkdown b =>
      simp only [step]
      split
      · exact h
      · exact h

/-- C10: from the initial state, every reachable state has a well-formed
modal record: its type is one of the four tags and a snapshot is attached
exactly in the EDIT and VIEW states. -/
theorem reachable_modalWellFormed (es : List Event) (notes0 : List Note)
    (draft0 : String) (md0 : Bool) :
    modalWellFormed (runEvents (mkState notes0 initialModal draft0 md0) es).modal := by
  have hgen : ∀ s : AppState, modalWellFormed s.modal →
      modalWellFormed (runEvents s es).modal := by
    induction es with
    | nil => intro s hs; simpa [runEvents] using hs
    | cons e es ih =>
        intro s hs
        rw [runEvents, List.foldl_cons]
        exact ih (step s e) (step_preserves_modalWellFormed s e hs)
  exact hgen _ (by simp [modalWellFormed, initialModal, mkState])

/-- A JSON value, the result of JSON.parse on well-formed input and the
argument structure JSON.stringify serialises. The platform pair of parse and
stringify is modelled at this value level: stringify of a value parses back
to the same value. -/
inductive Json where
  | null
  | bool (b : Bool)
  | num (n : Nat)
  | str (s : String)
  | arr (elems : List Json)
  | obj (fields : List (String × Json))

/-- JavaScript truthiness of a parsed JSON value, deciding the fallback on
App.tsx line 23: null, false, zero and the empty string are falsy; every
array and object, even empty, is truthy. -/
def jsonTruthy : Json → Bool
  | Json.null => false
  | Json.bool b => b
  | Json.num n => n != 0
  | Json.str s => s != ""
  | Json.arr _ => true
  | Json.obj _ => true

/-- The JSON shape JSON.stringify produces for one note: an object with the
four fields in declaration order (App.tsx lines 6-11 and 66-71). -/
def noteToJson (n : Note) : Json :=
  Json.obj [("id", Json.num n.id), ("content", Json.str n.content),
    ("createdAt", Json.num n.createdAt), ("updatedAt", Json.num n.updatedAt)]

/-- Reading a parsed JSON value back as a note. The code performs no
validation, it merely treats the parsed value as a Note; this function
models that treatment, succeeding exactly on values of the shape the code
itself writes. -/
def noteFromJson : Json → Option Note
  | Json.obj [("id", Json.num i), ("content", Json.str c),
      ("createdAt", Json.num ca), ("updatedAt", Json.num ua)] =>
      some { id := i, content := c, createdAt := ca, updatedAt := ua }
  | _ => none

/-- Reading a list of parsed JSON values back as notes, failing as soon as
one element does not have the note shape. -/
def notesFromJsonList : List Json → Option (List Note)
  | [] => some []
  | j :: js =>
      match noteFromJson j, notesFromJsonList js with
      | some n, some ns => some (n :: ns)
      | _, _ => none

/-- Reading a parsed JSON value back as the note collection. -/
def notesFromJson : Json → Option (List Note)
  | Json.arr js => notesFromJsonList js
  | _ => none

/-- The contents of the notes slot of localStorage as the load on App.tsx
line 23 observes them: absent (getItem returned null), present but rejected
by JSON.parse, or present and parsed to a JSON value. -/
inductive StoredSlot where
  | absent
  | malformed
  | value (j : Json)

/-- The outcome of a failed load. -/
inductive LoadError where
  | syntaxError
  | badShape
deriving Repr, DecidableEq

/-- The save of App.tsx lines 28-30: JSON.stringify of the full collection
overwrites the slot. -/
def saveNotes (notes : List Note) : StoredSlot :=
  StoredSlot.value (Json.arr (notes.map noteToJson))

/-- The load of App.tsx line 23, JSON.parse(localStorage.getItem) with the
or-else-empty fallback. An absent slot parses as null and falls back to the
empty collection. A malformed slot makes JSON.parse throw an uncaught
SyntaxError. A parsed falsy value falls back to the empty collection; a
parsed truthy value is treated as the collection, which is faithful only
when it has the note-array shape, the other case being a corrupt store. -/
def loadNotes : StoredSlot → Except LoadError (List Note)
  | StoredSlot.absent => Except.ok []
  | StoredSlot.malformed => Except.error LoadError.syntaxError
  | StoredSlot.value j =>
      if jsonTruthy j then
        match notesFromJson j with
        | some ns => Except.ok ns
        | none => Except.error LoadError.badShape
      else Except.ok []

/-- Helper: decoding inverts encoding on every single note. -/
theorem noteFromJson_noteToJson (n : Note) :
    noteFromJson (noteToJson n) = some n :=
  rfl

/-- Helper: decoding inverts encoding elementwise on lists. -/
theorem notesFromJsonList_map (notes : List Note) :
    notesFromJsonList (notes.map noteToJson) = some notes := by
  induction notes with
  | nil => rfl
  | cons n ns ih =>
      rw [List.map_cons, notesFromJsonList, noteFromJson_noteToJson, ih]

/-- C6: loading what save wrote returns the very same collection, every
field of every note and the order preserved. -/
theorem loadNotes_saveNotes (notes : List Note) :
    loadNotes (saveNotes notes) = Except.ok notes := by
  rw [saveNotes, loadNotes]
  rw [if_pos (show jsonTruthy (Json.arr (notes.map noteToJson)) = true from rfl)]
  rw [notesFromJson, notesFromJsonList_map notes]

/-- C7 counterexample: a malformed slot does not load as the empty
collection; JSON.parse throws an uncaught SyntaxError and the page crashes
instead of recovering. -/
theorem loadNotes_malformed_cex :
    loadNotes StoredSlot.malformed = Except.error LoadError.syntaxError
    ∧ ¬ loadNotes StoredSlot.malformed = Except.ok [] :=
  ⟨rfl, fun h => by cases h⟩

/-- C7 as amended: an absent slot loads as the empty collection, and so does
a present slot whose parsed value is JSON null, but a malformed slot makes
the uncaught parse error escape, so the application crashes rather than
starting empty. -/
theorem loadNotes_absent_empty_malformed_crash :
    loadNotes StoredSlot.absent = Except.ok []
    ∧ loadNotes (StoredSlot.value Json.null) = Except.ok []
    ∧ loadNotes StoredSlot.malformed = Except.error LoadError.syntaxError :=
  ⟨rfl, rfl, rfl⟩

end NotesApp
